import Mathlib

/-!
Shallow embedding of the Sellafield core-dump writer (`src/main.rs`).

The program is a straight-line pipeline invoked once per crash:
argument parsing → core-limit short-circuit → privilege drop (`set_uid`) →
identity lookup (`get_user_details`) → policy-script evaluation
(`run_script`) → dump write (`write_output`).

The embedding models the pipeline as a pure function from an `Opts`
record and a `World` (the external collaborators: the passwd database,
stdin, the inherited umask, the setuid outcome, and the policy script's
behaviour) to a trace of OS-visible events plus an `Except` result.
Machine integers are `Nat`/`Int` with explicit wrapping where the source
wraps (`i64 → u64` casts, 32-bit bitwise complement).
-/

namespace Sellafield

/-- Command-line options, from `struct Opts` in `main.rs`
(`uid: u32`, `pid: u32`, `time: u32`, `exe: String`,
`core_limit: u64`, `config: PathBuf`). -/
structure Opts where
  uid : Nat
  pid : Nat
  time : Nat
  exe : String
  core_limit : Nat
  config : String
deriving DecidableEq, Repr

/-- The script-facing configuration accumulator, from `struct Config`
(`output_path: String`, `permissions: u64`). -/
structure Config where
  output_path : String
  permissions : Nat
deriving DecidableEq, Repr

/-- One call a policy script makes to the two registered mutating
primitives, `set_output_path(String)` and `set_permissions(i64)`. -/
inductive ScriptCall where
  | set_output_path (s : String)
  | set_permissions (x : Int)
deriving DecidableEq, Repr

/-- `engine.register_fn("set_permissions", move |x: i64| ... = x as u64)`:
the Rust `as u64` cast of an `i64` is reduction modulo `2^64`
(two's-complement reinterpretation). -/
def i64ToU64 (x : Int) : Nat := (x % (2 ^ 64 : Int)).toNat

/-- Effect of one script call on the shared `Config` cell: each closure
overwrites one field, last call wins. -/
def applyCall (c : Config) : ScriptCall → Config
  | .set_output_path s => { c with output_path := s }
  | .set_permissions x => { c with permissions := i64ToU64 x }

/-- The accumulator semantics of `run_script`: start from
`Config::default()` with `permissions` immediately set to the sensible
default `0o400`, then apply the script's setter calls in order. -/
def runCalls (calls : List ScriptCall) : Config :=
  calls.foldl applyCall { output_path := "", permissions := 0o400 }

/-- `latin1_to_string`: `s.iter().map(|&c| c as char).collect()` — each
byte becomes the character of equal code point. -/
def latin1_to_string (s : List Nat) : List Char :=
  s.map Char.ofNat

/-- `latin1_to_path`: `OsStr::from_bytes` keeps the raw bytes; a
`PathBuf` on Unix is its byte sequence. -/
def latin1_to_path (s : List Nat) : List Nat := s

/-- `UserDetails { username: String, home: PathBuf }`: the username is
already decoded text, the home directory is raw path bytes. -/
structure UserDetails where
  username : List Char
  home : List Nat
deriving DecidableEq, Repr

/-- Decoder state for UTF-8 with replacement (the semantics of Rust's
`to_string_lossy`): how many continuation bytes are still needed, the
code point accumulated so far, and the admissible range of the next
byte. -/
structure Utf8State where
  needed : Nat
  acc : Nat
  lo : Nat
  hi : Nat
deriving DecidableEq, Repr

/-- Initial UTF-8 decoder state. -/
def utf8Start : Utf8State := ⟨0, 0, 0x80, 0xBF⟩

/-- Action of a byte met in the initial state: ASCII is emitted as is, a
valid lead byte opens a multi-byte sequence with the range its second
byte must fall in, anything else emits U+FFFD. -/
def utf8First (b : Nat) : List Nat × Utf8State :=
  if b ≤ 0x7F then ([b], utf8Start)
  else if b < 0xC2 then ([0xFFFD], utf8Start)
  else if b ≤ 0xDF then ([], ⟨1, b - 0xC0, 0x80, 0xBF⟩)
  else if b = 0xE0 then ([], ⟨2, 0, 0xA0, 0xBF⟩)
  else if b = 0xED then ([], ⟨2, 0xD, 0x80, 0x9F⟩)
  else if b ≤ 0xEF then ([], ⟨2, b - 0xE0, 0x80, 0xBF⟩)
  else if b = 0xF0 then ([], ⟨3, 0, 0x90, 0xBF⟩)
  else if b ≤ 0xF3 then ([], ⟨3, b - 0xF0, 0x80, 0xBF⟩)
  else if b = 0xF4 then ([], ⟨3, 4, 0x80, 0x8F⟩)
  else ([0xFFFD], utf8Start)

/-- One step of the lossy UTF-8 decoder: a continuation byte in range
extends the current sequence (finishing it when it was the last one
needed); a byte out of range ends the broken sequence with U+FFFD
("maximal subpart" replacement) and is reprocessed as a fresh first
byte. -/
def utf8Step (st : Utf8State) (b : Nat) : List Nat × Utf8State :=
  if st.needed = 0 then utf8First b
  else if st.lo ≤ b ∧ b ≤ st.hi then
    let acc := st.acc * 64 + (b - 0x80)
    if st.needed = 1 then ([acc], utf8Start)
    else ([], ⟨st.needed - 1, acc, 0x80, 0xBF⟩)
  else
    let r := utf8First b
    (0xFFFD :: r.1, r.2)

/-- Run the lossy decoder over a byte list; an unfinished sequence at
end of input becomes a final U+FFFD. -/
def utf8LossyAux (st : Utf8State) : List Nat → List Nat
  | [] => if st.needed = 0 then [] else [0xFFFD]
  | b :: rest =>
    let r := utf8Step st b
    r.1 ++ utf8LossyAux r.2 rest

/-- `to_string_lossy` on a Unix path: decode the raw bytes as UTF-8,
replacing every invalid sequence with U+FFFD. -/
def utf8Lossy (bs : List Nat) : List Char :=
  (utf8LossyAux utf8Start bs).map Char.ofNat

/-- `opts.exe.replace('!', "/")` on the character level. -/
def replBang (c : Char) : Char := if c = '!' then '/' else c

/-- `let full_exe = opts.exe.replace('!', "/")`. -/
def fullExe (s : List Char) : List Char := s.map replBang

/-- `full_exe.rsplit_once('/')`: split at the last `/`, giving the part
before it and the part after it; `none` when there is no `/`. -/
def rsplitOnceSlash : List Char → Option (List Char × List Char)
  | [] => none
  | c :: rest =>
    match rsplitOnceSlash rest with
    | some (pre, post) => some (c :: pre, post)
    | none => if c = '/' then some ([], rest) else none

/-- `full_exe.rsplit_once('/').and_then(|(_, exe)| Some(exe))
.unwrap_or_default()`: the basename after the last `/`, or the empty
string when the path has no `/` at all. -/
def exeOf (s : List Char) : List Char :=
  match rsplitOnceSlash s with
  | some r => r.2
  | none => []

/-- `Path::new(&config.output_path).parent()` as used before
`create_dir_all`: everything before the last `/` (empty for a bare
file name). -/
def parentOf (s : String) : String :=
  match rsplitOnceSlash s.toList with
  | some r => ⟨r.1⟩
  | none => ""

/-- The context the policy script sees: the seven read-only accessors
registered in `run_script` (`home`, `username`, `uid`, `pid`, `time`,
`full_exe`, `exe`). -/
structure ScriptCtx where
  home : List Char
  username : List Char
  uid : Nat
  pid : Nat
  time : Nat
  full_exe : List Char
  exe : List Char

/-- Build the accessor context as `run_script` does: `home` is
`user_details.home.to_string_lossy()` (UTF-8 lossy over the raw path
bytes), `username` is the already-decoded `user_details.username`, and
the executable names come from the `!`→`/` decoding. -/
def mkCtx (opts : Opts) (ud : UserDetails) : ScriptCtx :=
  { home := utf8Lossy ud.home
  , username := ud.username
  , uid := opts.uid
  , pid := opts.pid
  , time := opts.time
  , full_exe := fullExe opts.exe.toList
  , exe := exeOf (fullExe opts.exe.toList) }

/-- Error taxonomy of the pipeline (each `bail!`/`anyhow!` site).
`invalidPermissions` carries the offending `config.permissions` value,
as the source interpolates it into the message. -/
inductive Err where
  | usage (msg : String)
  | privilegeDrop (uid : Nat)
  | identityLookup (uid : Nat)
  | policyScript (msg : String)
  | invalidPermissions (value : Nat)
  | writeFail (msg : String)
deriving DecidableEq, Repr

/-- OS-visible events of one run, in program order: `setuid`,
`getpwuid`, evaluating the config script, `umask`, `create_dir_all`
(with the mode its new directories get), creating the output file (with
its creation-time permission bits), `chmod`, and writing bytes. -/
inductive Event where
  | setuidEv (uid : Nat)
  | getpwEv (uid : Nat)
  | runScriptEv
  | setUmaskEv (mask : Nat)
  | createDirsEv (path : String) (mode : Nat)
  | createFileEv (path : String) (mode : Nat)
  | chmodEv (path : String) (mode : Nat)
  | writeEv (path : String) (bytes : List Nat)
deriving DecidableEq, Repr

/-- External collaborators of one invocation: the passwd database
(uid ↦ raw `pw_name` and `pw_dir` bytes), whether `setuid(uid)`
succeeds, the behaviour of the policy script at `opts.config` (a
function of the exposed accessors, returning its setter calls or a
runtime error), the bytes available on standard input, and the
file-creation mask inherited from the parent process. -/
structure World where
  passwd : Nat → Option (List Nat × List Nat)
  setuidOk : Nat → Bool
  script : ScriptCtx → Except String (List ScriptCall)
  stdin : List Nat
  initUmask : Nat

/-- Bitwise `!` on a 32-bit `libc::mode_t` value. -/
def u32Not (x : Nat) : Nat := 0xFFFFFFFF ^^^ (x % 2 ^ 32)

/-- The kernel retains only the permission bits of a mask passed to
`umask(2)`: the stored mask is `mask & 0o777`. -/
def umaskKept (m : Nat) : Nat := m &&& 0o777

/-- Permission bits a file created with requested mode `req` gets under
stored process umask `um`: `req & ~um`. -/
def createdBits (req um : Nat) : Nat := req &&& (0o777 ^^^ umaskKept um)

/-- `write_output(config, core_limit)` with stdin and the inherited
process umask made explicit. In source order: `set_umask(0o022)`;
`create_dir_all(parent)`; `config.permissions.try_into::<u16>()`
(fails, citing the value, unless it fits in 16 bits);
`set_umask(!(permissions_mode as mode_t))`; open with
`create(true).truncate(true).write(true)` (requested mode `0o666`,
masked by the current umask); `fs::set_permissions(path, mode)`;
`io::copy(stdin.take(core_limit), out)`. The inherited umask `um0` is
overwritten before any filesystem operation. -/
def write_output (cfg : Config) (core_limit : Nat) (stdin : List Nat)
    (um0 : Nat) : List Event × Except Err Unit :=
  let _ := umaskKept um0
  let um1 := umaskKept 0o022
  let evs := [Event.setUmaskEv 0o022,
              Event.createDirsEv (parentOf cfg.output_path) (createdBits 0o777 um1)]
  if cfg.permissions < 2 ^ 16 then
    let permissions_mode := cfg.permissions
    let um2 := umaskKept (u32Not permissions_mode)
    (evs ++ [Event.setUmaskEv (u32Not permissions_mode),
             Event.createFileEv cfg.output_path (createdBits 0o666 um2),
             Event.chmodEv cfg.output_path permissions_mode,
             Event.writeEv cfg.output_path (stdin.take core_limit)],
     .ok ())
  else
    (evs, .error (.invalidPermissions cfg.permissions))

/-- The pipeline `run()` after argument parsing, as a function of the
options and the world; returns the event trace and the result. In
source order: the `core_limit <= 1` short-circuit; `set_uid`; the
`!`→`/` decode; `get_user_details`; `run_script`; and `write_output`
unless the script left the output path empty. -/
def run (opts : Opts) (w : World) : List Event × Except Err Unit :=
  if opts.core_limit ≤ 1 then ([], .ok ())
  else
    if w.setuidOk opts.uid then
      match w.passwd opts.uid with
      | none => ([.setuidEv opts.uid, .getpwEv opts.uid],
                 .error (.identityLookup opts.uid))
      | some pw =>
        let ud : UserDetails :=
          { username := latin1_to_string pw.1, home := latin1_to_path pw.2 }
        match w.script (mkCtx opts ud) with
        | .error msg =>
            ([.setuidEv opts.uid, .getpwEv opts.uid, .runScriptEv],
             .error (.policyScript msg))
        | .ok calls =>
          let config := runCalls calls
          if config.output_path = "" then
            ([.setuidEv opts.uid, .getpwEv opts.uid, .runScriptEv], .ok ())
          else
            let wr := write_output config opts.core_limit w.stdin w.initUmask
            ([.setuidEv opts.uid, .getpwEv opts.uid, .runScriptEv] ++ wr.1, wr.2)
    else ([.setuidEv opts.uid], .error (.privilegeDrop opts.uid))

/-- Interpret the event trace as the state of the file at `path`:
creation installs the creation-time mode with empty (truncated)
content, `chmod` replaces the mode, a write appends bytes. -/
def applyEv (path : String) (st : Option (Nat × List Nat)) :
    Event → Option (Nat × List Nat)
  | .createFileEv p m => if p = path then some (m, []) else st
  | .chmodEv p m =>
      if p = path then
        match st with
        | some s => some (m, s.2)
        | none => none
      else st
  | .writeEv p bs =>
      if p = path then
        match st with
        | some s => some (s.1, s.2 ++ bs)
        | none => none
      else st
  | _ => st

/-- Final state (permission bits and content) of the file at `path`
after the trace, `none` if it was never created. -/
def fileState (evs : List Event) (path : String) : Option (Nat × List Nat) :=
  evs.foldl (applyEv path) none

/-- Final permission bits of the file at `path`. -/
def finalMode (evs : List Event) (path : String) : Option Nat :=
  (fileState evs path).map Prod.fst

/-- Final content of the file at `path`. -/
def finalContent (evs : List Event) (path : String) : Option (List Nat) :=
  (fileState evs path).map Prod.snd

/-! ## Unfolding helpers for `run` and `write_output` -/

/-- When the permission value fits in 16 bits, `write_output` succeeds
and its trace is the fixed seven-step sequence of the source. -/
theorem write_output_ok (cfg : Config) (cl : Nat) (stdin : List Nat)
    (um0 : Nat) (h : cfg.permissions < 2 ^ 16) :
    write_output cfg cl stdin um0 =
      ([Event.setUmaskEv 0o022,
        Event.createDirsEv (parentOf cfg.output_path)
          (createdBits 0o777 (umaskKept 0o022)),
        Event.setUmaskEv (u32Not cfg.permissions),
        Event.createFileEv cfg.output_path
          (createdBits 0o666 (umaskKept (u32Not cfg.permissions))),
        Event.chmodEv cfg.output_path cfg.permissions,
        Event.writeEv cfg.output_path (stdin.take cl)],
       .ok ()) := by
  have h' : cfg.permissions < 65536 := by omega
  simp [write_output, h']

/-- When the permission value does not fit in 16 bits, `write_output`
fails after the directory step, citing the value, and never reaches
file creation. -/
theorem write_output_invalid (cfg : Config) (cl : Nat) (stdin : List Nat)
    (um0 : Nat) (h : ¬ cfg.permissions < 2 ^ 16) :
    write_output cfg cl stdin um0 =
      ([Event.setUmaskEv 0o022,
        Event.createDirsEv (parentOf cfg.output_path)
          (createdBits 0o777 (umaskKept 0o022))],
       .error (.invalidPermissions cfg.permissions)) := by
  have h' : ¬ cfg.permissions < 65536 := by omega
  simp [write_output, h']

/-- `run` under a successful lookup and script, when the script chose a
non-empty output path: the trace is the pipeline prefix followed by the
`write_output` trace. -/
theorem run_write (opts : Opts) (w : World) (nb db : List Nat)
    (calls : List ScriptCall)
    (hc : 1 < opts.core_limit)
    (hsu : w.setuidOk opts.uid = true)
    (hpw : w.passwd opts.uid = some (nb, db))
    (hs : w.script (mkCtx opts
      { username := latin1_to_string nb, home := latin1_to_path db }) = .ok calls)
    (hp : ¬ (runCalls calls).output_path = "") :
    run opts w =
      ([Event.setuidEv opts.uid, Event.getpwEv opts.uid, Event.runScriptEv] ++
        (write_output (runCalls calls) opts.core_limit w.stdin w.initUmask).1,
       (write_output (runCalls calls) opts.core_limit w.stdin w.initUmask).2) := by
  have hc' : ¬ opts.core_limit ≤ 1 := by omega
  simp [run, hc', hsu, hpw, hs, hp]

/-- `run` under a successful lookup and script, when the script left
the output path empty: success with no filesystem event. -/
theorem run_skip (opts : Opts) (w : World) (nb db : List Nat)
    (calls : List ScriptCall)
    (hc : 1 < opts.core_limit)
    (hsu : w.setuidOk opts.uid = true)
    (hpw : w.passwd opts.uid = some (nb, db))
    (hs : w.script (mkCtx opts
      { username := latin1_to_string nb, home := latin1_to_path db }) = .ok calls)
    (hp : (runCalls calls).output_path = "") :
    run opts w =
      ([Event.setuidEv opts.uid, Event.getpwEv opts.uid, Event.runScriptEv],
       .ok ()) := by
  have hc' : ¬ opts.core_limit ≤ 1 := by omega
  simp [run, hc', hsu, hpw, hs, hp]

/-! ## Concrete inputs used by the witnesses -/

/-- A representative invocation: the spec's own example crash. -/
def optsW : Opts :=
  { uid := 1000, pid := 4242, time := 1700000000, exe := "!usr!bin!crashed"
  , core_limit := 50, config := "/etc/sellafield.rhai" }

/-- A world whose passwd database knows uid 1000 (`joe`, home
`/home`), whose script sets path `/x/y/out` and mode `0o600`, and
which offers 100 bytes on stdin under a restrictive inherited umask. -/
def wW : World :=
  { passwd := fun u =>
      if u = 1000 then some ([106, 111, 101], [47, 104, 111, 109, 101]) else none
  , setuidOk := fun _ => true
  , script := fun _ =>
      .ok [ScriptCall.set_output_path "/x/y/out", ScriptCall.set_permissions 0o600]
  , stdin := List.range 100
  , initUmask := 0o077 }

/-- The same invocation with the kernel sentinel `core_limit = 1`. -/
def optsSentinel : Opts := { optsW with core_limit := 1 }

/-- An invocation by a uid that is absent from every passwd database
below. -/
def optsUnknownUid : Opts := { optsW with uid := 1234 }

/-- A world whose passwd database is empty: every identity lookup
fails. -/
def wNoUser : World :=
  { passwd := fun _ => none
  , setuidOk := fun _ => true
  , script := fun _ => .ok []
  , stdin := []
  , initUmask := 0o022 }

/-! ## Claims -/

/-- C3: for every invocation whose `core_limit` is 0 or 1, the pipeline
returns success having performed no privilege drop, no identity lookup,
no policy-script evaluation and no filesystem write: the whole trace is
empty and the result is `Ok(())`. -/
theorem core_limit_sentinel_short_circuit (opts : Opts) (w : World)
    (h : opts.core_limit = 0 ∨ opts.core_limit = 1) :
    run opts w = ([], .ok ()) := by
  have h' : opts.core_limit ≤ 1 := by omega
  simp [run, h']

/-- Witness for C3 at `core_limit = 1`. -/
theorem core_limit_sentinel_short_circuit_witness :
    (optsSentinel.core_limit = 0 ∨ optsSentinel.core_limit = 1) ∧
    run optsSentinel wW = ([], .ok ()) :=
  ⟨by decide,
   core_limit_sentinel_short_circuit optsSentinel wW (by decide)⟩

/-- C4, counterexample: with `core_limit = 2`, a successful `setuid`
and a uid absent from the passwd database, the run does fail with an
identity-lookup error — but a privilege-drop attempt (`setuid`) is in
the trace, contradicting the claim that the failure precedes any
privilege-drop attempt: `set_uid(opts.uid)` at `main.rs:113` runs
before `get_user_details(opts.uid)` at `main.rs:125`. -/
theorem identity_lookup_before_drop_cex :
    (run optsUnknownUid wNoUser).2 = .error (.identityLookup 1234) ∧
    Event.setuidEv 1234 ∈ (run optsUnknownUid wNoUser).1 :=
  ⟨rfl, by decide⟩

/-- C4, amended: for every invocation with `core_limit > 1` whose uid
is absent from the identity database (and whose `setuid` succeeds),
the run fails with an `IdentityLookupError`, and this failure occurs
after the privilege drop but before any policy-script evaluation and
before any filesystem effect: the trace is exactly the `setuid` event
followed by the `getpwuid` event. -/
theorem identity_lookup_fails_before_script (opts : Opts) (w : World)
    (hc : 1 < opts.core_limit)
    (hsu : w.setuidOk opts.uid = true)
    (hpw : w.passwd opts.uid = none) :
    run opts w = ([Event.setuidEv opts.uid, Event.getpwEv opts.uid],
                  .error (.identityLookup opts.uid)) ∧
    Event.runScriptEv ∉ (run opts w).1 ∧
    (∀ p m, Event.createFileEv p m ∉ (run opts w).1) ∧
    (∀ p bs, Event.writeEv p bs ∉ (run opts w).1) := by
  have hc' : ¬ opts.core_limit ≤ 1 := by omega
  have hrun : run opts w = ([Event.setuidEv opts.uid, Event.getpwEv opts.uid],
      .error (.identityLookup opts.uid)) := by
    simp [run, hc', hsu, hpw]
  refine ⟨hrun, ?_, ?_, ?_⟩ <;> rw [hrun] <;> simp

/-- Witness for the amended C4. -/
theorem identity_lookup_fails_before_script_witness :
    1 < optsUnknownUid.core_limit ∧
    wNoUser.setuidOk optsUnknownUid.uid = true ∧
    wNoUser.passwd optsUnknownUid.uid = none ∧
    run optsUnknownUid wNoUser =
      ([Event.setuidEv optsUnknownUid.uid, Event.getpwEv optsUnknownUid.uid],
       .error (.identityLookup optsUnknownUid.uid)) :=
  ⟨by decide, by decide, by decide,
   (identity_lookup_fails_before_script optsUnknownUid wNoUser
     (by decide) (by decide) (by decide)).1⟩

/-- C9: whenever the script completes without error and leaves the
output path empty, the pipeline succeeds, creates no file and creates
no directory: the trace holds only the `setuid`, `getpwuid` and
script-evaluation events. -/
theorem empty_output_path_discards (opts : Opts) (w : World)
    (nb db : List Nat) (calls : List ScriptCall)
    (hc : 1 < opts.core_limit)
    (hsu : w.setuidOk opts.uid = true)
    (hpw : w.passwd opts.uid = some (nb, db))
    (hs : w.script (mkCtx opts
      { username := latin1_to_string nb, home := latin1_to_path db }) = .ok calls)
    (hp : (runCalls calls).output_path = "") :
    (run opts w).2 = .ok () ∧
    (∀ p m, Event.createFileEv p m ∉ (run opts w).1) ∧
    (∀ p m, Event.createDirsEv p m ∉ (run opts w).1) ∧
    (∀ p bs, Event.writeEv p bs ∉ (run opts w).1) := by
  have hrun := run_skip opts w nb db calls hc hsu hpw hs hp
  refine ⟨?_, ?_, ?_, ?_⟩ <;> rw [hrun] <;> simp

/-- A world like `wW` whose script sets a permission mode but no
output path. -/
def wDiscard : World :=
  { wW with script := fun _ => .ok [ScriptCall.set_permissions 0o644] }

/-- Witness for C9: a script that only sets permissions leaves the
path empty, and the run succeeds without touching the filesystem. -/
theorem empty_output_path_discards_witness :
    1 < optsW.core_limit ∧
    (runCalls [ScriptCall.set_permissions 0o644]).output_path = "" ∧
    (run optsW wDiscard).2 = .ok () ∧
    (∀ p m, Event.createFileEv p m ∉ (run optsW wDiscard).1) :=
  have h := empty_output_path_discards optsW wDiscard
    [106, 111, 101] [47, 104, 111, 109, 101]
    [ScriptCall.set_permissions 0o644]
    (by decide) (by decide) (by decide) (by rfl) (by decide)
  ⟨by decide, by decide, h.1, h.2.1⟩

/-- The configuration a list of script calls produces: appending a
final `set_permissions x` makes `x as u64` the resulting permission
value, whatever came before. -/
theorem runCalls_last_set_permissions (pre : List ScriptCall) (x : Int) :
    (runCalls (pre ++ [ScriptCall.set_permissions x])).permissions = i64ToU64 x := by
  simp [runCalls, List.foldl_append, applyCall]

/-- C5: a script-set permission value that does not fit in 16 bits
makes the writer fail with an `InvalidPermissionsError` carrying the
offending value; the trace contains no file-creation event, so the
output file's state is `none` — the value is never truncated into a
valid mode. -/
theorem invalid_permissions_rejected (opts : Opts) (w : World)
    (nb db : List Nat) (calls : List ScriptCall)
    (hc : 1 < opts.core_limit)
    (hsu : w.setuidOk opts.uid = true)
    (hpw : w.passwd opts.uid = some (nb, db))
    (hs : w.script (mkCtx opts
      { username := latin1_to_string nb, home := latin1_to_path db }) = .ok calls)
    (hp : ¬ (runCalls calls).output_path = "")
    (hm : 2 ^ 16 ≤ (runCalls calls).permissions) :
    (run opts w).2 = .error (.invalidPermissions (runCalls calls).permissions) ∧
    (∀ p m, Event.createFileEv p m ∉ (run opts w).1) ∧
    fileState (run opts w).1 (runCalls calls).output_path = none := by
  have hrun := run_write opts w nb db calls hc hsu hpw hs hp
  rw [write_output_invalid _ _ _ _ (by omega)] at hrun
  refine ⟨?_, ?_, ?_⟩ <;> rw [hrun] <;> simp [fileState, applyEv]

/-- A world like `wW` whose script asks for the permission value
`2^16`, one past the largest representable mode. -/
def wBadPerm : World :=
  { passwd := wW.passwd
  , setuidOk := wW.setuidOk
  , script := fun _ =>
      Except.ok [ScriptCall.set_output_path "/x/y/out",
                 ScriptCall.set_permissions 65536]
  , stdin := wW.stdin
  , initUmask := wW.initUmask }

/-- Witness for C5: mode `65536` is rejected, citing the value, and no
file is created. -/
theorem invalid_permissions_rejected_witness :
    2 ^ 16 ≤ (runCalls [ScriptCall.set_output_path "/x/y/out",
      ScriptCall.set_permissions 65536]).permissions ∧
    (run optsW wBadPerm).2 = .error (.invalidPermissions 65536) ∧
    fileState (run optsW wBadPerm).1 "/x/y/out" = none :=
  have h := invalid_permissions_rejected optsW wBadPerm
    [106, 111, 101] [47, 104, 111, 109, 101]
    [ScriptCall.set_output_path "/x/y/out", ScriptCall.set_permissions 65536]
    (by decide) (by decide) (by decide) (by rfl) (by decide) (by decide)
  ⟨by decide, h.1, h.2.2⟩

/-- C10: a negative integer handed to `set_permissions` is
reinterpreted as an unsigned 64-bit value (`x as u64`, two's
complement), which always lies at or above `2^63` and hence exceeds
the 16-bit mode range, so a run whose script last set a negative mode
and chose a non-empty output path fails with the invalid-permissions
error and creates no file — negative modes are never silently
truncated to small valid modes. -/
theorem negative_permissions_rejected (opts : Opts) (w : World)
    (nb db : List Nat) (pre : List ScriptCall) (x : Int)
    (hx1 : -(2 ^ 63) ≤ x) (hx2 : x < 0)
    (hc : 1 < opts.core_limit)
    (hsu : w.setuidOk opts.uid = true)
    (hpw : w.passwd opts.uid = some (nb, db))
    (hs : w.script (mkCtx opts
        { username := latin1_to_string nb, home := latin1_to_path db })
      = .ok (pre ++ [ScriptCall.set_permissions x]))
    (hp : ¬ (runCalls (pre ++ [ScriptCall.set_permissions x])).output_path = "") :
    (runCalls (pre ++ [ScriptCall.set_permissions x])).permissions
      = ((2 : Int) ^ 64 + x).toNat ∧
    2 ^ 16 ≤ ((2 : Int) ^ 64 + x).toNat ∧
    (run opts w).2 = .error (.invalidPermissions (((2 : Int) ^ 64 + x).toNat)) ∧
    (∀ p m, Event.createFileEv p m ∉ (run opts w).1) := by
  have hmod : x % ((2 : Int) ^ 64) = 2 ^ 64 + x := by omega
  have hval : (runCalls (pre ++ [ScriptCall.set_permissions x])).permissions
      = ((2 : Int) ^ 64 + x).toNat := by
    rw [runCalls_last_set_permissions, i64ToU64, hmod]
  have hge : 2 ^ 16 ≤ ((2 : Int) ^ 64 + x).toNat := by omega
  have hrun := run_write opts w nb db (pre ++ [ScriptCall.set_permissions x])
    hc hsu hpw hs hp
  rw [write_output_invalid _ _ _ _ (by omega)] at hrun
  rw [hval] at hrun
  refine ⟨hval, hge, ?_, ?_⟩ <;> rw [hrun]
  simp

/-- A world like `wW` whose script passes `-1` to `set_permissions`. -/
def wNegPerm : World :=
  { passwd := wW.passwd
  , setuidOk := wW.setuidOk
  , script := fun _ =>
      Except.ok [ScriptCall.set_output_path "/x/y/out",
                 ScriptCall.set_permissions (-1)]
  , stdin := wW.stdin
  , initUmask := wW.initUmask }

/-- Witness for C10 at `set_permissions(-1)`: the stored value is
`2^64 - 1`, the run fails citing it, and no file is created. -/
theorem negative_permissions_rejected_witness :
    (runCalls [ScriptCall.set_output_path "/x/y/out",
        ScriptCall.set_permissions (-1)]).permissions = 18446744073709551615 ∧
    (run optsW wNegPerm).2 =
      .error (.invalidPermissions 18446744073709551615) :=
  have h := negative_permissions_rejected optsW wNegPerm
    [106, 111, 101] [47, 104, 111, 109, 101]
    [ScriptCall.set_output_path "/x/y/out"] (-1)
    (by decide) (by decide) (by decide) (by decide) (by decide)
    (by rfl) (by decide)
  ⟨by decide, by
    have h3 := h.2.2.1
    norm_num at h3 ⊢
    exact h3⟩

/-- C1: in every run where the script chose a non-empty output path and
a permission value that fits the 16-bit platform mode width, whatever
file-creation mask was inherited (`w.initUmask` is arbitrary), the
trace sets the umask to the bitwise complement of the requested mode
immediately before creating the file, chmods the file to the requested
mode right after creation, and the file's final permission bits equal
exactly the script-chosen mode. -/
theorem dump_mode_matches_script (opts : Opts) (w : World)
    (nb db : List Nat) (calls : List ScriptCall)
    (hc : 1 < opts.core_limit)
    (hsu : w.setuidOk opts.uid = true)
    (hpw : w.passwd opts.uid = some (nb, db))
    (hs : w.script (mkCtx opts
      { username := latin1_to_string nb, home := latin1_to_path db }) = .ok calls)
    (hp : ¬ (runCalls calls).output_path = "")
    (hm : (runCalls calls).permissions < 2 ^ 16) :
    (run opts w).2 = .ok () ∧
    (run opts w).1 =
      [Event.setuidEv opts.uid, Event.getpwEv opts.uid, Event.runScriptEv,
       Event.setUmaskEv 0o022,
       Event.createDirsEv (parentOf (runCalls calls).output_path)
         (createdBits 0o777 (umaskKept 0o022)),
       Event.setUmaskEv (u32Not (runCalls calls).permissions),
       Event.createFileEv (runCalls calls).output_path
         (createdBits 0o666 (umaskKept (u32Not (runCalls calls).permissions))),
       Event.chmodEv (runCalls calls).output_path (runCalls calls).permissions,
       Event.writeEv (runCalls calls).output_path (w.stdin.take opts.core_limit)] ∧
    finalMode (run opts w).1 (runCalls calls).output_path
      = some (runCalls calls).permissions := by
  have hrun := run_write opts w nb db calls hc hsu hpw hs hp
  rw [write_output_ok _ _ _ _ hm] at hrun
  refine ⟨?_, ?_, ?_⟩
  · rw [hrun]
  · rw [hrun]
    simp
  · rw [hrun]
    simp [finalMode, fileState, applyEv]

/-- Witness for C1: the spec's example script (`/x/y/out`, `0o600`)
under an inherited umask of `0o077` still yields final mode `0o600`. -/
theorem dump_mode_matches_script_witness :
    (runCalls [ScriptCall.set_output_path "/x/y/out",
      ScriptCall.set_permissions 0o600]).permissions = 0o600 ∧
    wW.initUmask = 0o077 ∧
    (run optsW wW).2 = .ok () ∧
    finalMode (run optsW wW).1 "/x/y/out" = some 0o600 :=
  have h := dump_mode_matches_script optsW wW
    [106, 111, 101] [47, 104, 111, 109, 101]
    [ScriptCall.set_output_path "/x/y/out", ScriptCall.set_permissions 0o600]
    (by decide) (by decide) (by decide) (by rfl) (by decide) (by decide)
  ⟨by decide, by decide, h.1, h.2.2⟩

/-- C2: in every successful writing run, the output file's content is
exactly the first `min(core_limit, length of stdin)` bytes of standard
input, and every write event in the trace carries exactly that prefix —
bytes past `core_limit` are never written. -/
theorem dump_content_is_stdin_head (opts : Opts) (w : World)
    (nb db : List Nat) (calls : List ScriptCall)
    (hc : 1 < opts.core_limit)
    (hsu : w.setuidOk opts.uid = true)
    (hpw : w.passwd opts.uid = some (nb, db))
    (hs : w.script (mkCtx opts
      { username := latin1_to_string nb, home := latin1_to_path db }) = .ok calls)
    (hp : ¬ (runCalls calls).output_path = "")
    (hm : (runCalls calls).permissions < 2 ^ 16) :
    finalContent (run opts w).1 (runCalls calls).output_path
      = some (w.stdin.take (min opts.core_limit w.stdin.length)) ∧
    (∀ bs, Event.writeEv (runCalls calls).output_path bs ∈ (run opts w).1 →
      bs = w.stdin.take opts.core_limit ∧
      bs.length = min opts.core_limit w.stdin.length) := by
  have hrun := run_write opts w nb db calls hc hsu hpw hs hp
  rw [write_output_ok _ _ _ _ hm] at hrun
  constructor
  · rw [hrun]
    simp [finalContent, fileState, applyEv]
  · intro bs hbs
    rw [hrun] at hbs
    simp at hbs
    subst hbs
    exact ⟨rfl, by simp [List.length_take]⟩

/-- Witness for C2: 100 bytes on stdin, `core_limit = 50`: the file
holds the first 50 bytes. -/
theorem dump_content_is_stdin_head_witness :
    1 < optsW.core_limit ∧
    finalContent (run optsW wW).1
      (runCalls [ScriptCall.set_output_path "/x/y/out",
        ScriptCall.set_permissions 0o600]).output_path
      = some (wW.stdin.take (min optsW.core_limit wW.stdin.length)) :=
  have h := dump_content_is_stdin_head optsW wW
    [106, 111, 101] [47, 104, 111, 109, 101]
    [ScriptCall.set_output_path "/x/y/out", ScriptCall.set_permissions 0o600]
    (by decide) (by decide) (by decide) (by rfl) (by decide) (by decide)
  ⟨by decide, h.1⟩

/-- Folding script calls that never touch `set_permissions` leaves the
permission field of the accumulator unchanged. -/
theorem foldl_no_set_permissions (calls : List ScriptCall) (c : Config)
    (h : ∀ x : Int, ScriptCall.set_permissions x ∉ calls) :
    (calls.foldl applyCall c).permissions = c.permissions := by
  induction calls generalizing c with
  | nil => rfl
  | cons a rest ih =>
    cases a with
    | set_output_path s =>
      rw [List.foldl_cons]
      rw [ih (applyCall c (ScriptCall.set_output_path s))
        (fun x hx => h x (List.mem_cons_of_mem _ hx))]
      rfl
    | set_permissions x =>
      exact absurd (List.mem_cons_self _ _) (h x)

/-- C7: a policy script that never calls `set_permissions` leaves the
default mode `0o400` in the returned configuration, and a run whose
script only set the output path creates the file with final permission
bits `0o400`. -/
theorem default_permission_mode (opts : Opts) (w : World)
    (nb db : List Nat) (calls : List ScriptCall)
    (hnoset : ∀ x : Int, ScriptCall.set_permissions x ∉ calls)
    (hc : 1 < opts.core_limit)
    (hsu : w.setuidOk opts.uid = true)
    (hpw : w.passwd opts.uid = some (nb, db))
    (hs : w.script (mkCtx opts
      { username := latin1_to_string nb, home := latin1_to_path db }) = .ok calls)
    (hp : ¬ (runCalls calls).output_path = "") :
    (runCalls calls).permissions = 0o400 ∧
    finalMode (run opts w).1 (runCalls calls).output_path = some 0o400 := by
  have h1 : (runCalls calls).permissions = 0o400 :=
    foldl_no_set_permissions calls _ hnoset
  have hm : (runCalls calls).permissions < 2 ^ 16 := by omega
  have hrun := run_write opts w nb db calls hc hsu hpw hs hp
  rw [write_output_ok _ _ _ _ hm] at hrun
  refine ⟨h1, ?_⟩
  rw [hrun]
  simp [finalMode, fileState, applyEv, h1]

/-- A world like `wW` whose script sets only the output path. -/
def wOnlyPath : World :=
  { passwd := wW.passwd
  , setuidOk := wW.setuidOk
  , script := fun _ => Except.ok [ScriptCall.set_output_path "/x/y/out"]
  , stdin := wW.stdin
  , initUmask := wW.initUmask }

/-- Witness for C7: a path-only script yields final mode `0o400`. -/
theorem default_permission_mode_witness :
    (∀ x : Int, ScriptCall.set_permissions x ∉
      [ScriptCall.set_output_path "/x/y/out"]) ∧
    (runCalls [ScriptCall.set_output_path "/x/y/out"]).permissions = 0o400 ∧
    finalMode (run optsW wOnlyPath).1 "/x/y/out" = some 0o400 :=
  have h := default_permission_mode optsW wOnlyPath
    [106, 111, 101] [47, 104, 111, 109, 101]
    [ScriptCall.set_output_path "/x/y/out"]
    (by intro x; simp) (by decide) (by decide) (by decide) (by rfl) (by decide)
  ⟨by intro x; simp, h.1, h.2⟩

/-- C6, failing input: with home-directory bytes `[0xE9]` (Latin-1
`é`), the `home()` accessor value built by `run_script` via
`to_string_lossy` is the UTF-8 replacement character U+FFFD, not the
byte-for-byte code point U+00E9 the spec requires — the raw byte 0xE9
is an invalid UTF-8 sequence, so the home string is mis-decoded as a
multi-byte encoding and rejected with a replacement character. The
`username()` accessor does go through the byte-for-byte
`latin1_to_string`. The source marks the defect itself:
`main.rs:144 "TODO: Sort out encodings. This is all wrong."` -/
theorem home_accessor_not_byte_decoded :
    (mkCtx optsW { username := latin1_to_string [106, 111, 101],
                   home := latin1_to_path [233] }).username
      = latin1_to_string [106, 111, 101] ∧
    (mkCtx optsW { username := latin1_to_string [106, 111, 101],
                   home := latin1_to_path [233] }).home = [Char.ofNat 0xFFFD] ∧
    (mkCtx optsW { username := latin1_to_string [106, 111, 101],
                   home := latin1_to_path [233] }).home
      ≠ List.map Char.ofNat [233] := by
  refine ⟨rfl, by decide, by decide⟩

/-- A list without `/` makes `rsplit_once('/')` return `none`. -/
theorem rsplitOnceSlash_of_no_slash (l : List Char) (h : '/' ∉ l) :
    rsplitOnceSlash l = none := by
  induction l with
  | nil => rfl
  | cons c rest ih =>
    have hc : ¬ c = '/' := fun he => h (he ▸ List.mem_cons_self c rest)
    simp [rsplitOnceSlash, ih (fun hm => h (List.mem_cons_of_mem _ hm)), hc]

/-- `rsplit_once('/')` splits at the last slash: prepending anything to
`'/' :: post` with a slash-free `post` always yields `(pre, post)`. -/
theorem rsplitOnceSlash_append (pre post : List Char) (h : '/' ∉ post) :
    rsplitOnceSlash (pre ++ '/' :: post) = some (pre, post) := by
  induction pre with
  | nil => simp [rsplitOnceSlash, rsplitOnceSlash_of_no_slash post h]
  | cons c pre ih => simp [rsplitOnceSlash, ih]

/-- C8: decoding replaces every `!` by `/` (so `!usr!bin!crashed`
becomes `/usr/bin/crashed`), and `exe` is the substring of `full_exe`
after the last `/` (here `crashed`); in general, whenever `full_exe`
ends in a slash-free suffix after some `/`, `exeOf` returns exactly
that suffix, and a slash-free `full_exe` yields the empty basename. -/
theorem exe_path_decoding :
    fullExe "!usr!bin!crashed".toList = "/usr/bin/crashed".toList ∧
    exeOf (fullExe "!usr!bin!crashed".toList) = "crashed".toList ∧
    (∀ pre post : List Char, '/' ∉ post → exeOf (pre ++ '/' :: post) = post) ∧
    (∀ s : List Char, '/' ∉ s → exeOf s = []) := by
  refine ⟨by decide, by decide, ?_, ?_⟩
  · intro pre post h
    simp [exeOf, rsplitOnceSlash_append pre post h]
  · intro s h
    simp [exeOf, rsplitOnceSlash_of_no_slash s h]

/-- Witness for C8's universal part at `/usr/bin` ++ `/` ++ `crashed`. -/
theorem exe_path_decoding_witness :
    ('/' ∉ "crashed".toList) ∧
    exeOf ("/usr/bin".toList ++ '/' :: "crashed".toList) = "crashed".toList :=
  ⟨by decide,
   exe_path_decoding.2.2.1 "/usr/bin".toList "crashed".toList (by decide)⟩

end Sellafield
